import Mathlib

/-
Verification of the etcd route-store core of jupyterhub-traefik-proxy
(`jupyterhub_traefik_proxy/etcd.py`).

Strings are modelled as lists of characters (`Str`); route data and key
paths are byte strings, so the claims about escaping quantify over strings
whose characters are bytes (code points below 256).

The etcd backend is modelled as an association list from keys to values,
with single-key get, range (prefix) get, and atomic transactions that apply
a list of put/delete actions in order.
-/

namespace TraefikEtcd

/-- Strings as lists of characters. -/
abbrev Str : Type := List Char

/-- Modelled from the spec: the external escaping library (`escapism`) used
by the source is not part of this repository.  Per the spec (sections 4.1,
6, 9) escaping is percent-style with a fixed safe set: ASCII alphanumeric
characters pass through unchanged, every other character is written as the
escape character followed by two uppercase hex digits of its byte value.
`isSafeChar` decides membership in the safe set. -/
def isSafeChar (c : Char) : Bool :=
  decide ((48 ≤ c.toNat ∧ c.toNat ≤ 57) ∨ (65 ≤ c.toNat ∧ c.toNat ≤ 90) ∨
    (97 ≤ c.toNat ∧ c.toNat ≤ 122))

/-- The character for hex digit `n` (uppercase for 10–15). -/
def hexDigitChar (n : Nat) : Char :=
  if n < 10 then Char.ofNat (48 + n) else Char.ofNat (55 + n)

/-- Modelled from the spec: escape a single character — safe characters are
kept, any other byte becomes the escape character followed by two hex
digits. -/
def escapeChar (c : Char) : Str :=
  if isSafeChar c then [c]
  else ['_', hexDigitChar (c.toNat / 16 % 16), hexDigitChar (c.toNat % 16)]

/-- Modelled from the spec: `escape(s)` — encode an arbitrary string into a
key-path-safe segment. -/
def escape : Str → Str
  | [] => []
  | c :: rest => escapeChar c ++ escape rest

/-- Numeric value of a hex digit character, `none` for non-hex characters. -/
def hexVal (c : Char) : Option Nat :=
  if 48 ≤ c.toNat ∧ c.toNat ≤ 57 then some (c.toNat - 48)
  else if 65 ≤ c.toNat ∧ c.toNat ≤ 70 then some (c.toNat - 55)
  else if 97 ≤ c.toNat ∧ c.toNat ≤ 102 then some (c.toNat - 87)
  else none

/-- Modelled from the spec: `unescape(segment)` — inverse of `escape`;
fails (`none`, the spec's `DecodeError`) when the segment is not validly
escaped (an escape character not followed by two hex digits). -/
def unescape : Str → Option Str
  | [] => some []
  | c :: rest =>
    if c = '_' then
      match rest with
      | c1 :: c2 :: rest2 =>
        match hexVal c1, hexVal c2 with
        | some hi, some lo => (unescape rest2).map (fun t => Char.ofNat (16 * hi + lo) :: t)
        | _, _ => none
      | _ => none
    else
      (unescape rest).map (fun t => c :: t)

/-- A byte string: every character is a code point below 256. -/
def isByteClean (s : Str) : Bool := s.all (fun c => c.toNat < 256)


/-! ## The etcd backend model -/

/-- The etcd key-value store, modelled as an association list from keys to
values; `kv_put` and `kv_erase` keep at most one binding per key. -/
abbrev Store : Type := List (Str × Str)

/-- Single-key read (`kv_client.get`): the first binding of `k`, or `none`. -/
def kv_get : Store → Str → Option Str
  | [], _ => none
  | p :: rest, k => if p.1 = k then some p.2 else kv_get rest k

/-- Remove every binding of key `k`. -/
def kv_erase : Store → Str → Store
  | [], _ => []
  | p :: rest, k => if p.1 = k then kv_erase rest k else p :: kv_erase rest k

/-- Bind `k` to `v`, replacing any previous binding. -/
def kv_put (s : Store) (k v : Str) : Store :=
  (k, v) :: kv_erase s k

/-- One action inside an etcd transaction (`kv_client.transactions.put` or
`kv_client.transactions.delete`). -/
inductive TxnAction : Type
  | put (k v : Str)
  | del (k : Str)
deriving DecidableEq

/-- A guard condition of an etcd transaction (the `compare=` argument of
`kv_client.transaction`); the source never issues any, but the type records
that the backend supports them. -/
inductive TxnCompare : Type
  | valueEquals (k v : Str)
deriving DecidableEq

/-- A full etcd transaction request, mirroring
`kv_client.transaction(compare=..., success=..., failure=...)`. -/
structure TxnRequest : Type where
  compare : List TxnCompare
  success : List TxnAction
  failure : List TxnAction
deriving DecidableEq

/-- Apply one put/delete action to the store. -/
def applyAction (s : Store) (a : TxnAction) : Store :=
  match a with
  | .put k v => kv_put s k v
  | .del k => kv_erase s k

/-- Whether one guard condition holds in the store. -/
def compareHolds (s : Store) (c : TxnCompare) : Bool :=
  match c with
  | .valueEquals k v => kv_get s k == some v

/-- Run a transaction: when every guard holds, the success actions are
applied in order and the flag is `true`; otherwise the failure actions run.
All-or-nothing: the whole new store replaces the old one. -/
def runTxn (s : Store) (t : TxnRequest) : Bool × Store :=
  if t.compare.all (compareHolds s) then
    (true, t.success.foldl applyAction s)
  else
    (false, t.failure.foldl applyAction s)

/-- Source `TraefikEtcdProxy._etcd_transaction`: the request it submits —
the given success actions, an empty guard list and an empty failure
branch. -/
def _etcd_transaction_request (success_actions : List TxnAction) : TxnRequest :=
  ⟨[], success_actions, []⟩

/-- Source `TraefikEtcdProxy._etcd_transaction`: status and store after
submitting the success actions. -/
def _etcd_transaction (s : Store) (success_actions : List TxnAction) : Bool × Store :=
  runTxn s (_etcd_transaction_request success_actions)

/-- Source `TraefikEtcdProxy._etcd_get_prefix`: range read over a key
path; the etcd3 client yields `(value, metadata)` pairs, so each returned
pair is `(value, key)`. -/
def _etcd_get_range (s : Store) (pre : Str) : List (Str × Str) :=
  (s.filter (fun p => pre.isPrefixOf p.1)).map (fun p => (p.2, p.1))

/-! ## The route-store operations of `TraefikEtcdProxy` -/

/-- The caller-supplied route-keys struct: the three router/service
descriptor key paths and the service alias. -/
structure RouteKeys : Type where
  service_url_path : Str
  router_service_path : Str
  router_rule_path : Str
  service_alias : Str
deriving DecidableEq

/-- Python `sep.join(parts)`. -/
def sepJoin (sep : Str) : List Str → Str
  | [] => []
  | [x] => x
  | x :: xs => x ++ sep ++ sepJoin sep xs

/-- Python `s.replace(pat, "", 1)`: remove the first occurrence of `pat`
from `s`; `s` is unchanged when `pat` does not occur, and an empty `pat`
removes nothing. -/
def removeFirstOcc (pat : Str) : Str → Str
  | [] => []
  | c :: rest =>
    if pat.isPrefixOf (c :: rest) then (c :: rest).drop pat.length
    else c :: removeFirstOcc pat rest

/-- The word `routes`. -/
def routesWord : Str := ['r', 'o', 'u', 't', 'e', 's']

/-- The word `targets`. -/
def targetsWord : Str := ['t', 'a', 'r', 'g', 'e', 't', 's']

/-- Modelled from the spec: `kv_separator` is configuration of the
`TKvProxy` base class, which is not part of this repository's source; the
spec's key scheme `<jupyterhubPrefix>/routes/<escape(routespec)>` fixes it
to `/`. -/
def kv_separator : Str := ['/']

/-- Modelled from the spec: `kv_jupyterhub_prefix` (the JupyterHub
namespace under which all route-plane keys live) is configuration of the
`TKvProxy` base class, not part of this repository's source; the source
comment names the default `/jupyterhub`. -/
def kv_jupyterhub_root : Str := ['/', 'j', 'u', 'p', 'y', 't', 'e', 'r', 'h', 'u', 'b']

/-- The computed target key
`sep.join([jupyterhub_prefix, "targets", escape(target)])` from
`_kv_atomic_add_route_parts`. -/
def jupyterhubTargetKey (sep jh target : Str) : Str :=
  sepJoin sep [jh, targetsWord, escape target]

/-- Source `_kv_atomic_add_route_parts`: builds the five put actions and
submits them as one transaction; returns the submitted request together
with the backend's status flag and the new store. -/
def _kv_atomic_add_route_parts (sep jh : Str) (s : Store)
    (jupyterhub_routespec target data : Str) (rk : RouteKeys) (rule : Str) :
    TxnRequest × (Bool × Store) :=
  let jupyterhub_target := jupyterhubTargetKey sep jh target
  let success : List TxnAction :=
    [.put jupyterhub_routespec target,
     .put jupyterhub_target data,
     .put rk.service_url_path target,
     .put rk.router_service_path rk.service_alias,
     .put rk.router_rule_path rule]
  (_etcd_transaction_request success, _etcd_transaction s success)

/-- Result of `_kv_atomic_delete_route_parts`: `txn = none` models the
`(True, None)` early return where no transaction is submitted. -/
structure DeleteResult : Type where
  txn : Option TxnRequest
  status : Bool
  store : Store
deriving DecidableEq

/-- Source `_kv_atomic_delete_route_parts`: reads the routespec key; when
absent, returns success with no transaction; otherwise builds the five
delete actions (routespec key, the stored target's data key, and the three
router/service descriptor keys) and submits them as one transaction. -/
def _kv_atomic_delete_route_parts (sep jh : Str) (s : Store)
    (jupyterhub_routespec : Str) (rk : RouteKeys) : DeleteResult :=
  match kv_get s jupyterhub_routespec with
  | none => ⟨none, true, s⟩
  | some value =>
    let jupyterhub_target := jupyterhubTargetKey sep jh value
    let success : List TxnAction :=
      [.del jupyterhub_routespec,
       .del jupyterhub_target,
       .del rk.service_url_path,
       .del rk.router_service_path,
       .del rk.router_rule_path]
    let r := _etcd_transaction s success
    ⟨some (_etcd_transaction_request success), r.1, r.2⟩

/-- Source `_kv_get_target`: single-key read of the routespec key. -/
def _kv_get_target (s : Store) (jupyterhub_routespec : Str) : Option Str :=
  kv_get s jupyterhub_routespec

/-- Source `_kv_get_data`: single-key read of the argument itself, with no
escaping and no prefixing. -/
def _kv_get_data (s : Store) (target : Str) : Option Str :=
  kv_get s target

/-- Source `_kv_get_route_parts`: decode one `(value, key)` entry from a
range read — strip the first occurrence of the routes key path from the
key and unescape it to recover the routespec, re-escape the value to build
the target's data key, strip and unescape that to recover the target, and
fetch the data stored at the target's data key.  Unescape failure (Python
`ValueError`) is modelled as `none`. -/
def _kv_get_route_parts (sep jh : Str) (s : Store) (kv_entry : Str × Str) :
    Option (Str × Str × Option Str) :=
  let key := kv_entry.2
  let value := kv_entry.1
  let route_pre := sepJoin sep [jh, routesWord ++ sep]
  let target_pre := sepJoin sep [jh, targetsWord]
  match unescape (removeFirstOcc route_pre key) with
  | none => none
  | some routespec =>
    let etcd_target := sepJoin sep [target_pre, escape value]
    match unescape (removeFirstOcc (target_pre ++ sep) etcd_target) with
    | none => none
    | some target => some (routespec, target, _kv_get_data s etcd_target)

/-- Source `_kv_get_jupyterhub_prefixed_entries`: range read over
`sep.join([jupyterhub_prefix, "routes" + sep])`. -/
def _kv_get_jupyterhub_prefixed_entries (sep jh : Str) (s : Store) :
    List (Str × Str) :=
  _etcd_get_range s (sepJoin sep [jh, routesWord ++ sep])

/-! ## Caller-level route operations (for reachable-state claims) -/

/-- The key path covering all route keys:
`sep.join([jupyterhub_prefix, "routes" + sep])` at the default separator
and namespace. -/
def routesRootKey : Str :=
  sepJoin kv_separator [kv_jupyterhub_root, routesWord ++ kv_separator]

/-- Modelled from the spec: the owning `TKvProxy` (not part of this
repository's source) computes the routespec key passed to the kv-level
operations as `<jupyterhubPrefix>/routes/<escape(routespec)>`. -/
def routeKeyFor (spec : Str) : Str := routesRootKey ++ escape spec

/-- One caller-level route mutation. -/
inductive Op : Type
  | add (spec target data : Str) (rk : RouteKeys) (rule : Str)
  | del (spec : Str) (rk : RouteKeys)

/-- Run one caller-level operation against the store, at the default
separator and JupyterHub namespace. -/
def runOp (s : Store) : Op → Store
  | .add spec target data rk rule =>
    (_kv_atomic_add_route_parts kv_separator kv_jupyterhub_root s
      (routeKeyFor spec) target data rk rule).2.2
  | .del spec rk =>
    (_kv_atomic_delete_route_parts kv_separator kv_jupyterhub_root s
      (routeKeyFor spec) rk).store

/-- The store reached by a sequence of route operations from the empty
store. -/
def runOps (ops : List Op) : Store := ops.foldl runOp []

/-- Well-formedness of one operation, as the spec assumes: routespecs and
targets are byte strings, and the caller-supplied router/service
descriptor key paths live under the proxy-facing namespace, outside the
routes key path. -/
def validOp : Op → Bool
  | .add spec target _ rk _ =>
    isByteClean spec && isByteClean target &&
      !(routesRootKey.isPrefixOf rk.service_url_path) &&
      !(routesRootKey.isPrefixOf rk.router_service_path) &&
      !(routesRootKey.isPrefixOf rk.router_rule_path)
  | .del spec rk =>
    isByteClean spec &&
      !(routesRootKey.isPrefixOf rk.service_url_path) &&
      !(routesRootKey.isPrefixOf rk.router_service_path) &&
      !(routesRootKey.isPrefixOf rk.router_rule_path)

/-- Reference semantics: the association of live routespecs to targets —
an add binds the routespec to the target, a delete removes the binding. -/
def liveStep (m : List (Str × Str)) : Op → List (Str × Str)
  | .add spec target _ _ _ => kv_put m spec target
  | .del spec _ => kv_erase m spec

/-- The routespec-to-target association left by a sequence of operations. -/
def liveRoutes (ops : List Op) : List (Str × Str) := ops.foldl liveStep []

/-- The routes-plane of a store: the bindings whose key lies under the
routes key path. -/
def routesPlane (s : Store) : Store :=
  s.filter (fun p => routesRootKey.isPrefixOf p.1)

/-! ## Escaping lemmas -/

lemma hexVal_hexDigitChar (n : Nat) (h : n < 16) : hexVal (hexDigitChar n) = some n := by
  interval_cases n <;> decide

lemma isSafeChar_ne_underscore {c : Char} (h : isSafeChar c = true) : ¬ (c = '_') := by
  intro hc
  subst hc
  simp [isSafeChar] at h

lemma unescape_cons_safe (c : Char) (rest : Str) (h : ¬ c = '_') :
    unescape (c :: rest) = (unescape rest).map (fun t => c :: t) := by
  rw [unescape.eq_def]
  simp [h]

lemma unescape_cons_escaped (c1 c2 : Char) (rest : Str) (hi lo : Nat)
    (h1 : hexVal c1 = some hi) (h2 : hexVal c2 = some lo) :
    unescape ('_' :: c1 :: c2 :: rest) =
      (unescape rest).map (fun t => Char.ofNat (16 * hi + lo) :: t) := by
  rw [unescape.eq_def]
  simp [h1, h2]

lemma unescape_escape (s : Str) (h : isByteClean s = true) : unescape (escape s) = some s := by
  induction s with
  | nil => rfl
  | cons c rest ih =>
    simp only [isByteClean, List.all_cons, Bool.and_eq_true, decide_eq_true_eq] at h
    obtain ⟨hc, hrest⟩ := h
    have ihr : unescape (escape rest) = some rest := ih hrest
    by_cases hs : isSafeChar c = true
    · have hne : ¬ (c = '_') := isSafeChar_ne_underscore hs
      simp [escape, escapeChar, hs, unescape_cons_safe c _ hne, ihr]
    · have h1 : hexVal (hexDigitChar (c.toNat / 16 % 16)) = some (c.toNat / 16 % 16) :=
        hexVal_hexDigitChar _ (Nat.mod_lt _ (by norm_num))
      have h2 : hexVal (hexDigitChar (c.toNat % 16)) = some (c.toNat % 16) :=
        hexVal_hexDigitChar _ (Nat.mod_lt _ (by norm_num))
      have hdiv : c.toNat / 16 < 16 := by omega
      have hval : 16 * (c.toNat / 16 % 16) + c.toNat % 16 = c.toNat := by
        rw [Nat.mod_eq_of_lt hdiv]
        exact Nat.div_add_mod c.toNat 16
      simp [escape, escapeChar, hs, unescape_cons_escaped _ _ _ _ _ h1 h2, ihr, hval]

lemma hexDigitChar_ne_slash (n : Nat) (h : n < 16) : hexDigitChar n ≠ '/' := by
  interval_cases n <;> decide

lemma slash_not_mem_escapeChar (c : Char) : ('/' : Char) ∉ escapeChar c := by
  by_cases hs : isSafeChar c = true
  · simp only [escapeChar, hs, if_true, List.mem_singleton]
    intro h
    rw [← h] at hs
    simp [isSafeChar] at hs
  · have ha := hexDigitChar_ne_slash (c.toNat / 16 % 16) (Nat.mod_lt _ (by norm_num))
    have hb := hexDigitChar_ne_slash (c.toNat % 16) (Nat.mod_lt _ (by norm_num))
    simp [escapeChar, hs, ha.symm, hb.symm]

lemma slash_not_mem_escape (s : Str) : ('/' : Char) ∉ escape s := by
  induction s with
  | nil => simp [escape]
  | cons c rest ih =>
    simp only [escape, List.mem_append]
    push_neg
    exact ⟨slash_not_mem_escapeChar c, ih⟩

/-! ## Store lemmas -/

lemma kv_get_erase (s : Store) (k k2 : Str) :
    kv_get (kv_erase s k) k2 = if k2 = k then none else kv_get s k2 := by
  induction s with
  | nil => simp [kv_get, kv_erase]
  | cons p rest ih =>
    simp only [kv_erase]
    by_cases h1 : p.1 = k
    · rw [if_pos h1, ih]
      by_cases h2 : k2 = k
      · simp [h2]
      · rw [if_neg h2, if_neg h2]
        have hne : ¬ p.1 = k2 := by
          rw [h1]
          exact fun hh => h2 hh.symm
        simp [kv_get, hne]
    · rw [if_neg h1]
      by_cases h3 : p.1 = k2
      · have h2 : ¬ k2 = k := fun hh => h1 (h3.trans hh)
        simp [kv_get, h3, h2]
      · simp [kv_get, h3, ih]

lemma kv_get_put (s : Store) (k v k2 : Str) :
    kv_get (kv_put s k v) k2 = if k2 = k then some v else kv_get s k2 := by
  by_cases h : k2 = k
  · simp [kv_put, kv_get, h]
  · have hne : ¬ k = k2 := fun hh => h hh.symm
    simp [kv_put, kv_get, hne, kv_get_erase, h]

lemma mem_kv_erase {p : Str × Str} {s : Store} {k : Str}
    (h : p ∈ kv_erase s k) : p ∈ s := by
  induction s with
  | nil => simp [kv_erase] at h
  | cons q rest ih =>
    simp only [kv_erase] at h
    by_cases h1 : q.1 = k
    · rw [if_pos h1] at h
      exact List.mem_cons_of_mem _ (ih h)
    · rw [if_neg h1] at h
      rcases List.mem_cons.mp h with h | h
      · exact h ▸ List.mem_cons_self q rest
      · exact List.mem_cons_of_mem _ (ih h)

lemma kv_erase_key_ne {s : Store} {k : Str} :
    ∀ p ∈ kv_erase s k, p.1 ≠ k := by
  induction s with
  | nil => simp [kv_erase]
  | cons q rest ih =>
    intro p hp
    simp only [kv_erase] at hp
    by_cases h1 : q.1 = k
    · rw [if_pos h1] at hp
      exact ih p hp
    · rw [if_neg h1] at hp
      rcases List.mem_cons.mp hp with h | h
      · rw [h]
        exact h1
      · exact ih p h

lemma kv_erase_of_forall_ne {s : Store} {k : Str}
    (h : ∀ p ∈ s, p.1 ≠ k) : kv_erase s k = s := by
  induction s with
  | nil => rfl
  | cons q rest ih =>
    simp only [kv_erase]
    rw [if_neg (h q (List.mem_cons_self q rest)), ih]
    intro p hp
    exact h p (List.mem_cons_of_mem _ hp)

lemma kv_get_none_forall_ne {s : Store} {k : Str}
    (h : kv_get s k = none) : ∀ p ∈ s, p.1 ≠ k := by
  induction s with
  | nil => simp
  | cons q rest ih =>
    intro p hp
    simp only [kv_get] at h
    by_cases h1 : q.1 = k
    · rw [if_pos h1] at h
      exact absurd h (by simp)
    · rw [if_neg h1] at h
      rcases List.mem_cons.mp hp with hq | hq
      · rw [hq]
        exact h1
      · exact ih h p hq

/-! ## String manipulation lemmas -/

lemma removeFirstOcc_append_self (pat rest : Str) :
    removeFirstOcc pat (pat ++ rest) = rest := by
  cases hp : pat with
  | nil =>
    cases rest with
    | nil => rfl
    | cons c r => simp [removeFirstOcc]
  | cons c p2 =>
    show removeFirstOcc (c :: p2) (c :: (p2 ++ rest)) = rest
    rw [removeFirstOcc]
    have hpre : (c :: p2).isPrefixOf (c :: (p2 ++ rest)) = true := by
      rw [List.isPrefixOf_iff_prefix]
      exact ⟨rest, by simp⟩
    rw [if_pos hpre]
    have : c :: (p2 ++ rest) = (c :: p2) ++ rest := by simp
    rw [this, List.drop_left]

lemma removeFirstOcc_of_no_occurrence (pat s : Str) (h : ¬ pat <:+: s) :
    removeFirstOcc pat s = s := by
  induction s with
  | nil => rfl
  | cons c rest ih =>
    rw [removeFirstOcc]
    have hpre : ¬ pat.isPrefixOf (c :: rest) = true := by
      rw [List.isPrefixOf_iff_prefix]
      exact fun hp => h hp.isInfix
    rw [if_neg hpre, ih (fun hi => h (hi.trans (List.suffix_cons c rest).isInfix))]

/-! ## Claim theorems -/

/-- C1: for every byte string `s` — including strings containing the key
separator `/` — unescaping the escaped form returns the original
(`unescape (escape s) = some s`); the escaped form is free of the
separator, and `escape` is injective. -/
theorem escape_roundtrip_injective (s t : Str)
    (hs : isByteClean s = true) (ht : isByteClean t = true) :
    unescape (escape s) = some s ∧ ('/' : Char) ∉ escape s ∧
      (escape s = escape t → s = t) := by
  refine ⟨unescape_escape s hs, slash_not_mem_escape s, fun h => ?_⟩
  have h1 := unescape_escape s hs
  rw [h, unescape_escape t ht] at h1
  exact (Option.some_injective _ h1).symm

/-- Witness for C1 at a concrete separator-containing string. -/
theorem escape_roundtrip_injective_witness :
    unescape (escape ['/', 'u', '/', 'a', '_', '1']) = some ['/', 'u', '/', 'a', '_', '1'] ∧
    ('/' : Char) ∉ escape ['/', 'u', '/', 'a', '_', '1'] ∧
    (escape ['/', 'u', '/', 'a', '_', '1'] = escape ['b'] →
      ['/', 'u', '/', 'a', '_', '1'] = ['b']) :=
  escape_roundtrip_injective ['/', 'u', '/', 'a', '_', '1'] ['b'] (by decide) (by decide)

/-- C2 counterexample: the entry with key `foo` — which does not start
with the routes key path `/jupyterhub/routes/` — is decoded by
`_kv_get_route_parts` to a triple instead of failing. -/
theorem route_parts_no_fail_without_routes_root :
    (sepJoin kv_separator [kv_jupyterhub_root, routesWord ++ kv_separator]).isPrefixOf
        ['f', 'o', 'o'] = false ∧
    _kv_get_route_parts kv_separator kv_jupyterhub_root []
        (['b', 'a', 'r'], ['f', 'o', 'o']) =
      some (['f', 'o', 'o'], ['b', 'a', 'r'], none) := by
  decide

/-- C2 amended: `_kv_get_route_parts` checks no prefix — for a kv entry
whose key does not contain the routes key path at all, the key is decoded
as-is: whenever unescaping succeeds, the call returns the triple of
decoded key, value, and the data stored at the value's computed target
key; the missing prefix raises no error. -/
theorem route_parts_decodes_any_key (sep jh : Str) (s : Store)
    (key value routespec : Str)
    (hni : ¬ (sepJoin sep [jh, routesWord ++ sep]) <:+: key)
    (hu : unescape key = some routespec)
    (hv : isByteClean value = true) :
    _kv_get_route_parts sep jh s (value, key) =
      some (routespec, value,
        kv_get s (sepJoin sep [sepJoin sep [jh, targetsWord], escape value])) := by
  have h2 : sepJoin sep [sepJoin sep [jh, targetsWord], escape value] =
      (sepJoin sep [jh, targetsWord] ++ sep) ++ escape value := by
    simp [sepJoin, List.append_assoc]
  simp only [_kv_get_route_parts, _kv_get_data]
  rw [removeFirstOcc_of_no_occurrence _ _ hni, hu, h2, removeFirstOcc_append_self,
    unescape_escape value hv]

/-- Witness for the amended C2 at a concrete prefix-less key. -/
theorem route_parts_decodes_any_key_witness :
    _kv_get_route_parts kv_separator kv_jupyterhub_root [] (['b'], ['f', '2', 'F']) =
      some (['f', '2', 'F'], ['b'],
        kv_get ([] : Store)
          (sepJoin kv_separator
            [sepJoin kv_separator [kv_jupyterhub_root, targetsWord], escape ['b']])) :=
  route_parts_decodes_any_key kv_separator kv_jupyterhub_root [] ['f', '2', 'F'] ['b']
    ['f', '2', 'F'] (by decide) (by decide) (by decide)

/-- C3: `_kv_atomic_add_route_parts` submits exactly one transaction made
of exactly five put actions — routespec key to target, computed target key
to data, `service_url_path` to target, `router_service_path` to
`service_alias`, and `router_rule_path` to rule — with no guard
conditions and no failure actions; the reported status is success and the
new store is exactly the effect of those five puts in order. -/
theorem add_route_one_txn_five_puts (sep jh : Str) (s : Store)
    (jr target data rule : Str) (rk : RouteKeys) :
    _kv_atomic_add_route_parts sep jh s jr target data rk rule =
      (⟨[], [TxnAction.put jr target,
             TxnAction.put (jupyterhubTargetKey sep jh target) data,
             TxnAction.put rk.service_url_path target,
             TxnAction.put rk.router_service_path rk.service_alias,
             TxnAction.put rk.router_rule_path rule], []⟩,
       true,
       [TxnAction.put jr target,
        TxnAction.put (jupyterhubTargetKey sep jh target) data,
        TxnAction.put rk.service_url_path target,
        TxnAction.put rk.router_service_path rk.service_alias,
        TxnAction.put rk.router_rule_path rule].foldl applyAction s) := rfl

/-- C4: deleting a routespec whose key is absent submits no transaction,
reports success with no response, and leaves the store exactly
unchanged. -/
theorem delete_route_absent_noop (sep jh : Str) (s : Store) (jr : Str) (rk : RouteKeys)
    (h : kv_get s jr = none) :
    _kv_atomic_delete_route_parts sep jh s jr rk = ⟨none, true, s⟩ := by
  simp [_kv_atomic_delete_route_parts, h]

/-- Witness for C4 on the empty store. -/
theorem delete_route_absent_noop_witness :
    _kv_atomic_delete_route_parts kv_separator kv_jupyterhub_root [] ['a']
        ⟨['1'], ['2'], ['3'], ['4']⟩ = ⟨none, true, []⟩ :=
  delete_route_absent_noop kv_separator kv_jupyterhub_root [] ['a']
    ⟨['1'], ['2'], ['3'], ['4']⟩ rfl

/-- C5: after a successful `_kv_atomic_add_route_parts`, reading the
routespec key returns the target and reading the computed target key
returns the data, provided the caller-supplied descriptor key paths do
not collide with the two route-plane keys (the spec's key hierarchy keeps
them in separate namespaces). -/
theorem add_route_then_get_target_and_data (sep jh : Str) (s : Store)
    (jr target data rule : Str) (rk : RouteKeys)
    (ha : jr ≠ jupyterhubTargetKey sep jh target)
    (hb : jr ≠ rk.router_service_path)
    (hc : jr ≠ rk.router_rule_path)
    (hd : jupyterhubTargetKey sep jh target ≠ rk.service_url_path)
    (he : jupyterhubTargetKey sep jh target ≠ rk.router_service_path)
    (hf : jupyterhubTargetKey sep jh target ≠ rk.router_rule_path) :
    _kv_get_target (_kv_atomic_add_route_parts sep jh s jr target data rk rule).2.2 jr =
      some target ∧
    _kv_get_data (_kv_atomic_add_route_parts sep jh s jr target data rk rule).2.2
      (jupyterhubTargetKey sep jh target) = some data := by
  constructor
  · simp [_kv_atomic_add_route_parts, _etcd_transaction, _etcd_transaction_request,
      runTxn, applyAction, _kv_get_target, kv_get_put, ha, hb, hc]
  · simp [_kv_atomic_add_route_parts, _etcd_transaction, _etcd_transaction_request,
      runTxn, applyAction, _kv_get_data, kv_get_put, hd, he, hf]

/-- Witness for C5 at concrete arguments. -/
theorem add_route_then_get_target_and_data_witness :
    _kv_get_target (_kv_atomic_add_route_parts kv_separator kv_jupyterhub_root []
        ['a'] ['t'] ['d'] ⟨['1'], ['2'], ['3'], ['4']⟩ ['r']).2.2 ['a'] = some ['t'] ∧
    _kv_get_data (_kv_atomic_add_route_parts kv_separator kv_jupyterhub_root []
        ['a'] ['t'] ['d'] ⟨['1'], ['2'], ['3'], ['4']⟩ ['r']).2.2
      (jupyterhubTargetKey kv_separator kv_jupyterhub_root ['t']) = some ['d'] :=
  add_route_then_get_target_and_data kv_separator kv_jupyterhub_root []
    ['a'] ['t'] ['d'] ['r'] ⟨['1'], ['2'], ['3'], ['4']⟩
    (by decide) (by decide) (by decide) (by decide) (by decide) (by decide)

/-- C6: when the routespec key is present, `_kv_atomic_delete_route_parts`
submits exactly one transaction of exactly five delete actions mirroring
the five puts of the add — the routespec key, the stored target's data
key, and the three descriptor key paths — reports success, and reading
the routespec key afterwards returns `none`. -/
theorem delete_route_removes_route (sep jh : Str) (s : Store) (jr v : Str) (rk : RouteKeys)
    (h : kv_get s jr = some v) :
    (_kv_atomic_delete_route_parts sep jh s jr rk).txn =
      some ⟨[], [TxnAction.del jr,
                 TxnAction.del (jupyterhubTargetKey sep jh v),
                 TxnAction.del rk.service_url_path,
                 TxnAction.del rk.router_service_path,
                 TxnAction.del rk.router_rule_path], []⟩ ∧
    (_kv_atomic_delete_route_parts sep jh s jr rk).status = true ∧
    _kv_get_target (_kv_atomic_delete_route_parts sep jh s jr rk).store jr = none := by
  refine ⟨?_, ?_, ?_⟩ <;>
    simp [_kv_atomic_delete_route_parts, h, _etcd_transaction, _etcd_transaction_request,
      runTxn, applyAction, _kv_get_target, kv_get_erase]

/-- Witness for C6 at a concrete one-route store. -/
theorem delete_route_removes_route_witness :
    (_kv_atomic_delete_route_parts kv_separator kv_jupyterhub_root [(['a'], ['t'])]
        ['a'] ⟨['1'], ['2'], ['3'], ['4']⟩).txn =
      some ⟨[], [TxnAction.del ['a'],
                 TxnAction.del (jupyterhubTargetKey kv_separator kv_jupyterhub_root ['t']),
                 TxnAction.del ['1'],
                 TxnAction.del ['2'],
                 TxnAction.del ['3']], []⟩ ∧
    (_kv_atomic_delete_route_parts kv_separator kv_jupyterhub_root [(['a'], ['t'])]
        ['a'] ⟨['1'], ['2'], ['3'], ['4']⟩).status = true ∧
    _kv_get_target (_kv_atomic_delete_route_parts kv_separator kv_jupyterhub_root
        [(['a'], ['t'])] ['a'] ⟨['1'], ['2'], ['3'], ['4']⟩).store ['a'] = none :=
  delete_route_removes_route kv_separator kv_jupyterhub_root [(['a'], ['t'])]
    ['a'] ['t'] ⟨['1'], ['2'], ['3'], ['4']⟩ rfl

/-- C7: `_kv_atomic_add_route_parts` is idempotent — running it twice with
identical arguments leaves the store with the same key-value contents as
running it once: every key reads the same afterwards. -/
theorem add_route_idempotent (sep jh : Str) (s : Store)
    (jr target data rule : Str) (rk : RouteKeys) (k : Str) :
    kv_get (_kv_atomic_add_route_parts sep jh
        ((_kv_atomic_add_route_parts sep jh s jr target data rk rule).2.2)
        jr target data rk rule).2.2 k =
      kv_get ((_kv_atomic_add_route_parts sep jh s jr target data rk rule).2.2) k := by
  simp only [_kv_atomic_add_route_parts, _etcd_transaction, _etcd_transaction_request,
    runTxn, List.all_nil, if_true, List.foldl, applyAction, kv_get_put]
  split_ifs <;> rfl

/-- C8 counterexample: two routes `/a/` and `/b/` share target `t9`;
deleting `/a/` succeeds, route `/b/` still references `t9`, yet the shared
target's data key has been removed — `_kv_get_data` on the computed target
key returns `none`, not the stored data. -/
theorem delete_shared_target_drops_data :
    (let s2 := (_kv_atomic_add_route_parts kv_separator kv_jupyterhub_root
        (_kv_atomic_add_route_parts kv_separator kv_jupyterhub_root []
          (routeKeyFor ['/', 'a', '/']) ['t', '9'] ['d'] ⟨['1'], ['2'], ['3'], ['4']⟩ ['r']).2.2
        (routeKeyFor ['/', 'b', '/']) ['t', '9'] ['d'] ⟨['5'], ['6'], ['7'], ['8']⟩ ['r']).2.2
     let dr := _kv_atomic_delete_route_parts kv_separator kv_jupyterhub_root s2
        (routeKeyFor ['/', 'a', '/']) ⟨['1'], ['2'], ['3'], ['4']⟩
     dr.status = true ∧
     _kv_get_target dr.store (routeKeyFor ['/', 'b', '/']) = some ['t', '9'] ∧
     _kv_get_data dr.store
       (jupyterhubTargetKey kv_separator kv_jupyterhub_root ['t', '9']) = none) := by
  decide

/-- C8 amended: the delete path removes the target's data key
unconditionally — when two distinct routespec keys map to the same target,
deleting one leaves the other route in place but deletes the shared
target's data key, so reading that key afterwards returns `none`. -/
theorem delete_shared_target_unconditional (sep jh : Str) (s : Store)
    (jrA jrB t : Str) (rk : RouteKeys)
    (hA : kv_get s jrA = some t)
    (hB : kv_get s jrB = some t)
    (hne : jrB ≠ jrA)
    (h1 : jrB ≠ jupyterhubTargetKey sep jh t)
    (h2 : jrB ≠ rk.service_url_path)
    (h3 : jrB ≠ rk.router_service_path)
    (h4 : jrB ≠ rk.router_rule_path) :
    _kv_get_target (_kv_atomic_delete_route_parts sep jh s jrA rk).store jrB = some t ∧
    _kv_get_data (_kv_atomic_delete_route_parts sep jh s jrA rk).store
      (jupyterhubTargetKey sep jh t) = none := by
  constructor
  · simp [_kv_atomic_delete_route_parts, hA, _etcd_transaction, _etcd_transaction_request,
      runTxn, applyAction, _kv_get_target, kv_get_erase, hne, h1, h2, h3, h4, hB]
  · simp [_kv_atomic_delete_route_parts, hA, _etcd_transaction, _etcd_transaction_request,
      runTxn, applyAction, _kv_get_data, kv_get_erase]

/-- Witness for the amended C8 at a concrete two-route store. -/
theorem delete_shared_target_unconditional_witness :
    _kv_get_target (_kv_atomic_delete_route_parts kv_separator kv_jupyterhub_root
        [(['a'], ['t']), (['b'], ['t'])] ['a'] ⟨['1'], ['2'], ['3'], ['4']⟩).store ['b'] =
      some ['t'] ∧
    _kv_get_data (_kv_atomic_delete_route_parts kv_separator kv_jupyterhub_root
        [(['a'], ['t']), (['b'], ['t'])] ['a'] ⟨['1'], ['2'], ['3'], ['4']⟩).store
      (jupyterhubTargetKey kv_separator kv_jupyterhub_root ['t']) = none :=
  delete_shared_target_unconditional kv_separator kv_jupyterhub_root
    [(['a'], ['t']), (['b'], ['t'])] ['a'] ['b'] ['t'] ⟨['1'], ['2'], ['3'], ['4']⟩
    rfl rfl (by decide) (by decide) (by decide) (by decide) (by decide)

/-- C10: `_kv_get_data` reads exactly the key it is given, with no
escaping and no target-path prefixing: it equals a raw single-key read;
right after an add it still returns the prior binding of the raw target
string, while the stored data is found only under the computed target
key — the caller must supply the computed key. -/
theorem kv_get_data_reads_raw_key (sep jh : Str) (s : Store)
    (jr target data rule : Str) (rk : RouteKeys) (k : Str)
    (h0 : target ≠ jr)
    (h1 : target ≠ jupyterhubTargetKey sep jh target)
    (h2 : target ≠ rk.service_url_path)
    (h3 : target ≠ rk.router_service_path)
    (h4 : target ≠ rk.router_rule_path)
    (h5 : jupyterhubTargetKey sep jh target ≠ rk.service_url_path)
    (h6 : jupyterhubTargetKey sep jh target ≠ rk.router_service_path)
    (h7 : jupyterhubTargetKey sep jh target ≠ rk.router_rule_path) :
    _kv_get_data s k = kv_get s k ∧
    _kv_get_data (_kv_atomic_add_route_parts sep jh s jr target data rk rule).2.2 target =
      kv_get s target ∧
    _kv_get_data (_kv_atomic_add_route_parts sep jh s jr target data rk rule).2.2
      (jupyterhubTargetKey sep jh target) = some data := by
  refine ⟨rfl, ?_, ?_⟩
  · simp [_kv_atomic_add_route_parts, _etcd_transaction, _etcd_transaction_request,
      runTxn, applyAction, _kv_get_data, kv_get_put, h0, h1, h2, h3, h4]
  · simp [_kv_atomic_add_route_parts, _etcd_transaction, _etcd_transaction_request,
      runTxn, applyAction, _kv_get_data, kv_get_put, h5, h6, h7]

/-- Witness for C10 at concrete arguments. -/
theorem kv_get_data_reads_raw_key_witness :
    _kv_get_data [] ['z'] = kv_get [] ['z'] ∧
    _kv_get_data (_kv_atomic_add_route_parts kv_separator kv_jupyterhub_root []
        ['a'] ['t'] ['d'] ⟨['1'], ['2'], ['3'], ['4']⟩ ['r']).2.2 ['t'] =
      kv_get [] ['t'] ∧
    _kv_get_data (_kv_atomic_add_route_parts kv_separator kv_jupyterhub_root []
        ['a'] ['t'] ['d'] ⟨['1'], ['2'], ['3'], ['4']⟩ ['r']).2.2
      (jupyterhubTargetKey kv_separator kv_jupyterhub_root ['t']) = some ['d'] :=
  kv_get_data_reads_raw_key kv_separator kv_jupyterhub_root []
    ['a'] ['t'] ['d'] ['r'] ⟨['1'], ['2'], ['3'], ['4']⟩ ['z']
    (by decide) (by decide) (by decide) (by decide) (by decide)
    (by decide) (by decide) (by decide)

/-! ## Reachable-state lemmas for the listing claim -/

lemma routeKeyFor_inj {a b : Str} (ha : isByteClean a = true) (hb : isByteClean b = true)
    (h : routeKeyFor a = routeKeyFor b) : a = b := by
  have h2 : escape a = escape b := List.append_cancel_left h
  have h3 := unescape_escape a ha
  rw [h2, unescape_escape b hb] at h3
  exact (Option.some_injective _ h3).symm

lemma routesRoot_pre_routeKey (spec : Str) : routesRootKey <+: routeKeyFor spec :=
  ⟨escape spec, rfl⟩

lemma routesRoot_not_pre_target (v : Str) :
    ¬ routesRootKey <+: jupyterhubTargetKey kv_separator kv_jupyterhub_root v := by
  intro h
  have h2 := List.isPrefixOf_iff_prefix.mpr h
  have h3 : routesRootKey.isPrefixOf
      (jupyterhubTargetKey kv_separator kv_jupyterhub_root v) = false := rfl
  rw [h2] at h3
  simp at h3

lemma routesPlane_cons_in (p : Str × Str) (s : Store) (h : routesRootKey <+: p.1) :
    routesPlane (p :: s) = p :: routesPlane s := by
  simp [routesPlane, List.filter_cons, h]

lemma routesPlane_cons_out (p : Str × Str) (s : Store) (h : ¬ routesRootKey <+: p.1) :
    routesPlane (p :: s) = routesPlane s := by
  simp [routesPlane, List.filter_cons, h]

lemma kv_erase_cons_eq (p : Str × Str) (s : Store) (k : Str) (h : p.1 = k) :
    kv_erase (p :: s) k = kv_erase s k := by
  simp [kv_erase, h]

lemma kv_erase_cons_ne (p : Str × Str) (s : Store) (k : Str) (h : ¬ p.1 = k) :
    kv_erase (p :: s) k = p :: kv_erase s k := by
  simp [kv_erase, h]

lemma routesPlane_erase (s : Store) (k : Str) :
    routesPlane (kv_erase s k) = kv_erase (routesPlane s) k := by
  induction s with
  | nil => rfl
  | cons p rest ih =>
    by_cases h2 : routesRootKey <+: p.1
    · by_cases h1 : p.1 = k
      · rw [kv_erase_cons_eq p rest k h1, routesPlane_cons_in p rest h2,
          kv_erase_cons_eq p (routesPlane rest) k h1, ih]
      · rw [kv_erase_cons_ne p rest k h1, routesPlane_cons_in _ _ h2,
          routesPlane_cons_in p rest h2, kv_erase_cons_ne p (routesPlane rest) k h1, ih]
    · by_cases h1 : p.1 = k
      · rw [kv_erase_cons_eq p rest k h1, routesPlane_cons_out p rest h2, ih]
      · rw [kv_erase_cons_ne p rest k h1, routesPlane_cons_out _ _ h2,
          routesPlane_cons_out p rest h2, ih]

lemma routesPlane_put_in (s : Store) (k v : Str) (h : routesRootKey <+: k) :
    routesPlane (kv_put s k v) = kv_put (routesPlane s) k v := by
  simp only [kv_put]
  rw [routesPlane_cons_in _ _ h, routesPlane_erase]

lemma not_mem_key_routesPlane {s : Store} {k : Str} (h : ¬ routesRootKey <+: k) :
    ∀ p ∈ routesPlane s, p.1 ≠ k := by
  intro p hp hk
  have hmem := (List.mem_filter.mp hp).2
  rw [hk] at hmem
  exact h (List.isPrefixOf_iff_prefix.mp hmem)

lemma routesPlane_put_out (s : Store) (k v : Str) (h : ¬ routesRootKey <+: k) :
    routesPlane (kv_put s k v) = routesPlane s := by
  simp only [kv_put]
  rw [routesPlane_cons_out _ _ h, routesPlane_erase,
    kv_erase_of_forall_ne (not_mem_key_routesPlane h)]

lemma routesPlane_erase_out (s : Store) (k : Str) (h : ¬ routesRootKey <+: k) :
    routesPlane (kv_erase s k) = routesPlane s := by
  rw [routesPlane_erase, kv_erase_of_forall_ne (not_mem_key_routesPlane h)]

lemma kv_get_routesPlane (s : Store) (k : Str) (h : routesRootKey <+: k) :
    kv_get (routesPlane s) k = kv_get s k := by
  induction s with
  | nil => rfl
  | cons p rest ih =>
    by_cases h2 : routesRootKey <+: p.1
    · rw [routesPlane_cons_in p rest h2]
      simp only [kv_get]
      by_cases h3 : p.1 = k
      · rw [if_pos h3, if_pos h3]
      · rw [if_neg h3, if_neg h3]
        exact ih
    · have h3 : ¬ p.1 = k := by
        intro hk
        rw [hk] at h2
        exact h2 h
      rw [routesPlane_cons_out p rest h2]
      simp only [kv_get, if_neg h3]
      exact ih

lemma map_routeKey_erase (m : List (Str × Str)) (spec : Str)
    (hm : ∀ p ∈ m, isByteClean p.1 = true) (hs : isByteClean spec = true) :
    (kv_erase m spec).map (fun p => (routeKeyFor p.1, p.2)) =
      kv_erase (m.map (fun p => (routeKeyFor p.1, p.2))) (routeKeyFor spec) := by
  induction m with
  | nil => rfl
  | cons p rest ih =>
    have hp := hm p (List.mem_cons_self p rest)
    have hrest : ∀ q ∈ rest, isByteClean q.1 = true :=
      fun q hq => hm q (List.mem_cons_of_mem _ hq)
    by_cases h1 : p.1 = spec
    · have h2 : routeKeyFor p.1 = routeKeyFor spec := by rw [h1]
      rw [kv_erase_cons_eq p rest spec h1, ih hrest, List.map_cons,
        kv_erase_cons_eq _ _ _ h2]
    · have h2 : ¬ routeKeyFor p.1 = routeKeyFor spec :=
        fun hh => h1 (routeKeyFor_inj hp hs hh)
      rw [kv_erase_cons_ne p rest spec h1, List.map_cons, List.map_cons,
        kv_erase_cons_ne _ _ _ h2, ih hrest]

lemma kv_get_map_routeKey (m : List (Str × Str)) (spec : Str)
    (hm : ∀ p ∈ m, isByteClean p.1 = true) (hs : isByteClean spec = true) :
    kv_get (m.map (fun p => (routeKeyFor p.1, p.2))) (routeKeyFor spec) =
      kv_get m spec := by
  induction m with
  | nil => rfl
  | cons p rest ih =>
    have hp := hm p (List.mem_cons_self p rest)
    have hrest : ∀ q ∈ rest, isByteClean q.1 = true :=
      fun q hq => hm q (List.mem_cons_of_mem _ hq)
    simp only [List.map_cons, kv_get]
    by_cases h1 : p.1 = spec
    · have h2 : routeKeyFor p.1 = routeKeyFor spec := by rw [h1]
      rw [if_pos h2, if_pos h1]
    · have h2 : ¬ routeKeyFor p.1 = routeKeyFor spec :=
        fun hh => h1 (routeKeyFor_inj hp hs hh)
      rw [if_neg h2, if_neg h1]
      exact ih hrest

lemma nodupKeys_erase {m : List (Str × Str)} {k : Str}
    (h : (m.map Prod.fst).Nodup) : ((kv_erase m k).map Prod.fst).Nodup := by
  induction m with
  | nil => simp [kv_erase]
  | cons p rest ih =>
    simp only [List.map_cons, List.nodup_cons] at h
    by_cases h1 : p.1 = k
    · rw [kv_erase_cons_eq p rest k h1]
      exact ih h.2
    · rw [kv_erase_cons_ne p rest k h1, List.map_cons, List.nodup_cons]
      refine ⟨fun hmem => ?_, ih h.2⟩
      obtain ⟨q, hq, hq2⟩ := List.mem_map.mp hmem
      exact h.1 (List.mem_map.mpr ⟨q, mem_kv_erase hq, hq2⟩)

lemma nodupKeys_put {m : List (Str × Str)} {k v : Str}
    (h : (m.map Prod.fst).Nodup) : ((kv_put m k v).map Prod.fst).Nodup := by
  simp only [kv_put, List.map_cons, List.nodup_cons]
  refine ⟨fun hmem => ?_, nodupKeys_erase h⟩
  obtain ⟨q, hq, hq2⟩ := List.mem_map.mp hmem
  exact kv_erase_key_ne q hq hq2

lemma liveRoutes_nodupKeys_aux (ops : List Op) :
    ∀ m, (m.map Prod.fst).Nodup → ((ops.foldl liveStep m).map Prod.fst).Nodup := by
  induction ops with
  | nil => exact fun m h => h
  | cons op rest ih =>
    intro m h
    apply ih
    cases op with
    | add spec target data rk rule => exact nodupKeys_put h
    | del spec rk => exact nodupKeys_erase h

lemma run_inv (ops : List Op) :
    ∀ (s : Store) (m : List (Str × Str)),
      ops.all validOp = true →
      routesPlane s = m.map (fun p => (routeKeyFor p.1, p.2)) →
      (∀ p ∈ m, isByteClean p.1 = true ∧ isByteClean p.2 = true) →
      routesPlane (ops.foldl runOp s) =
          (ops.foldl liveStep m).map (fun p => (routeKeyFor p.1, p.2)) ∧
        (∀ p ∈ ops.foldl liveStep m, isByteClean p.1 = true ∧ isByteClean p.2 = true) := by
  induction ops with
  | nil => exact fun s m _ h hm => ⟨h, hm⟩
  | cons op rest ih =>
    intro s m hv h hm
    simp only [List.all_cons, Bool.and_eq_true] at hv
    simp only [List.foldl_cons]
    refine ih (runOp s op) (liveStep m op) hv.2 ?_ ?_
    · cases op with
      | add spec target data rk rule =>
        have hvo := hv.1
        simp only [validOp, Bool.and_eq_true, Bool.not_eq_true'] at hvo
        obtain ⟨⟨⟨⟨hspec, htarget⟩, hrk1⟩, hrk2⟩, hrk3⟩ := hvo
        have hn1 : ¬ routesRootKey <+: rk.service_url_path := by
          intro hx
          rw [List.isPrefixOf_iff_prefix.mpr hx] at hrk1
          simp at hrk1
        have hn2 : ¬ routesRootKey <+: rk.router_service_path := by
          intro hx
          rw [List.isPrefixOf_iff_prefix.mpr hx] at hrk2
          simp at hrk2
        have hn3 : ¬ routesRootKey <+: rk.router_rule_path := by
          intro hx
          rw [List.isPrefixOf_iff_prefix.mpr hx] at hrk3
          simp at hrk3
        show routesPlane ((_kv_atomic_add_route_parts kv_separator kv_jupyterhub_root s
            (routeKeyFor spec) target data rk rule).2.2) =
          (kv_put m spec target).map (fun p => (routeKeyFor p.1, p.2))
        simp only [_kv_atomic_add_route_parts, _etcd_transaction, _etcd_transaction_request,
          runTxn, List.all_nil, if_true, List.foldl, applyAction]
        rw [routesPlane_put_out _ _ _ hn3, routesPlane_put_out _ _ _ hn2,
          routesPlane_put_out _ _ _ hn1,
          routesPlane_put_out _ _ _ (routesRoot_not_pre_target target),
          routesPlane_put_in _ _ _ (routesRoot_pre_routeKey spec), h]
        simp only [kv_put, List.map_cons]
        rw [map_routeKey_erase m spec (fun p hp => (hm p hp).1) hspec]
      | del spec rk =>
        have hvo := hv.1
        simp only [validOp, Bool.and_eq_true, Bool.not_eq_true'] at hvo
        obtain ⟨⟨⟨hspec, hrk1⟩, hrk2⟩, hrk3⟩ := hvo
        have hn1 : ¬ routesRootKey <+: rk.service_url_path := by
          intro hx
          rw [List.isPrefixOf_iff_prefix.mpr hx] at hrk1
          simp at hrk1
        have hn2 : ¬ routesRootKey <+: rk.router_service_path := by
          intro hx
          rw [List.isPrefixOf_iff_prefix.mpr hx] at hrk2
          simp at hrk2
        have hn3 : ¬ routesRootKey <+: rk.router_rule_path := by
          intro hx
          rw [List.isPrefixOf_iff_prefix.mpr hx] at hrk3
          simp at hrk3
        show routesPlane ((_kv_atomic_delete_route_parts kv_separator kv_jupyterhub_root s
            (routeKeyFor spec) rk).store) =
          (kv_erase m spec).map (fun p => (routeKeyFor p.1, p.2))
        cases hg : kv_get s (routeKeyFor spec) with
        | none =>
          have hnone : kv_get m spec = none := by
            rw [← kv_get_map_routeKey m spec (fun p hp => (hm p hp).1) hspec, ← h,
              kv_get_routesPlane s _ (routesRoot_pre_routeKey spec), hg]
          rw [kv_erase_of_forall_ne (kv_get_none_forall_ne hnone)]
          simp only [_kv_atomic_delete_route_parts, hg]
          exact h
        | some v =>
          simp only [_kv_atomic_delete_route_parts, hg, _etcd_transaction,
            _etcd_transaction_request, runTxn, List.all_nil, if_true, List.foldl, applyAction]
          rw [routesPlane_erase_out _ _ hn3, routesPlane_erase_out _ _ hn2,
            routesPlane_erase_out _ _ hn1,
            routesPlane_erase_out _ _ (routesRoot_not_pre_target v),
            routesPlane_erase, h,
            ← map_routeKey_erase m spec (fun p hp => (hm p hp).1) hspec]
    · cases op with
      | add spec target data rk rule =>
        have hvo := hv.1
        simp only [validOp, Bool.and_eq_true, Bool.not_eq_true'] at hvo
        obtain ⟨⟨⟨⟨hspec, htarget⟩, _⟩, _⟩, _⟩ := hvo
        intro p hp
        simp only [liveStep, kv_put, List.mem_cons] at hp
        rcases hp with hp | hp
        · rw [hp]
          exact ⟨hspec, htarget⟩
        · exact hm p (mem_kv_erase hp)
      | del spec rk =>
        intro p hp
        simp only [liveStep] at hp
        exact hm p (mem_kv_erase hp)

lemma decode_route_entry (s : Store) (spec target : Str)
    (hs : isByteClean spec = true) (ht : isByteClean target = true) :
    _kv_get_route_parts kv_separator kv_jupyterhub_root s (target, routeKeyFor spec) =
      some (spec, target,
        _kv_get_data s (jupyterhubTargetKey kv_separator kv_jupyterhub_root target)) := by
  have e1 : removeFirstOcc (sepJoin kv_separator [kv_jupyterhub_root, routesWord ++ kv_separator])
      (routeKeyFor spec) = escape spec :=
    removeFirstOcc_append_self routesRootKey (escape spec)
  have h2 : sepJoin kv_separator
      [sepJoin kv_separator [kv_jupyterhub_root, targetsWord], escape target] =
      (sepJoin kv_separator [kv_jupyterhub_root, targetsWord] ++ kv_separator) ++ escape target := by
    simp [sepJoin, List.append_assoc]
  have e2 : removeFirstOcc (sepJoin kv_separator [kv_jupyterhub_root, targetsWord] ++ kv_separator)
      (sepJoin kv_separator [sepJoin kv_separator [kv_jupyterhub_root, targetsWord], escape target]) =
      escape target := by
    rw [h2, removeFirstOcc_append_self]
  have keyeq : sepJoin kv_separator
      [sepJoin kv_separator [kv_jupyterhub_root, targetsWord], escape target] =
      jupyterhubTargetKey kv_separator kv_jupyterhub_root target := by
    simp [sepJoin, jupyterhubTargetKey, List.append_assoc]
  simp only [_kv_get_route_parts, e1, unescape_escape spec hs]
  rw [e2, unescape_escape target ht, keyeq]

/-- C9: from any store reachable by well-formed route operations, the
range read over the routes key path followed by `_kv_get_route_parts` on
each returned entry reproduces exactly the live routespec-to-target
association: no route missing, none duplicated, none mis-paired, and every
entry decodes to its routespec, its stored target, and the data under the
target's computed key. -/
theorem list_routes_decode_exact (ops : List Op) (hv : ops.all validOp = true) :
    ((_kv_get_jupyterhub_prefixed_entries kv_separator kv_jupyterhub_root (runOps ops)).map
        (_kv_get_route_parts kv_separator kv_jupyterhub_root (runOps ops))) =
      (liveRoutes ops).map (fun p =>
        some (p.1, p.2,
          _kv_get_data (runOps ops)
            (jupyterhubTargetKey kv_separator kv_jupyterhub_root p.2))) ∧
    ((liveRoutes ops).map Prod.fst).Nodup := by
  obtain ⟨hplane, hclean⟩ := run_inv ops [] [] hv rfl (by simp)
  constructor
  · have e : _kv_get_jupyterhub_prefixed_entries kv_separator kv_jupyterhub_root (runOps ops) =
        (routesPlane (runOps ops)).map (fun p => (p.2, p.1)) := rfl
    rw [e,
      show routesPlane (runOps ops) =
        (liveRoutes ops).map (fun p => (routeKeyFor p.1, p.2)) from hplane,
      List.map_map, List.map_map]
    apply List.map_congr_left
    intro p hp
    have hcp : isByteClean p.1 = true ∧ isByteClean p.2 = true := hclean p hp
    simp only [Function.comp]
    exact decode_route_entry (runOps ops) p.1 p.2 hcp.1 hcp.2
  · exact liveRoutes_nodupKeys_aux ops [] (by simp)

/-- Witness for C9 on a concrete add/add/delete history. -/
theorem list_routes_decode_exact_witness :
    ((_kv_get_jupyterhub_prefixed_entries kv_separator kv_jupyterhub_root
        (runOps [Op.add ['/', 'a', '/'] ['t'] ['d'] ⟨['1'], ['2'], ['3'], ['4']⟩ ['r'],
                 Op.add ['/', 'b', '/'] ['u'] ['e'] ⟨['5'], ['6'], ['7'], ['8']⟩ ['w'],
                 Op.del ['/', 'a', '/'] ⟨['1'], ['2'], ['3'], ['4']⟩])).map
        (_kv_get_route_parts kv_separator kv_jupyterhub_root
          (runOps [Op.add ['/', 'a', '/'] ['t'] ['d'] ⟨['1'], ['2'], ['3'], ['4']⟩ ['r'],
                   Op.add ['/', 'b', '/'] ['u'] ['e'] ⟨['5'], ['6'], ['7'], ['8']⟩ ['w'],
                   Op.del ['/', 'a', '/'] ⟨['1'], ['2'], ['3'], ['4']⟩]))) =
      (liveRoutes [Op.add ['/', 'a', '/'] ['t'] ['d'] ⟨['1'], ['2'], ['3'], ['4']⟩ ['r'],
                   Op.add ['/', 'b', '/'] ['u'] ['e'] ⟨['5'], ['6'], ['7'], ['8']⟩ ['w'],
                   Op.del ['/', 'a', '/'] ⟨['1'], ['2'], ['3'], ['4']⟩]).map (fun p =>
        some (p.1, p.2,
          _kv_get_data
            (runOps [Op.add ['/', 'a', '/'] ['t'] ['d'] ⟨['1'], ['2'], ['3'], ['4']⟩ ['r'],
                     Op.add ['/', 'b', '/'] ['u'] ['e'] ⟨['5'], ['6'], ['7'], ['8']⟩ ['w'],
                     Op.del ['/', 'a', '/'] ⟨['1'], ['2'], ['3'], ['4']⟩])
            (jupyterhubTargetKey kv_separator kv_jupyterhub_root p.2))) ∧
    ((liveRoutes [Op.add ['/', 'a', '/'] ['t'] ['d'] ⟨['1'], ['2'], ['3'], ['4']⟩ ['r'],
                  Op.add ['/', 'b', '/'] ['u'] ['e'] ⟨['5'], ['6'], ['7'], ['8']⟩ ['w'],
                  Op.del ['/', 'a', '/'] ⟨['1'], ['2'], ['3'], ['4']⟩]).map Prod.fst).Nodup :=
  list_routes_decode_exact
    [Op.add ['/', 'a', '/'] ['t'] ['d'] ⟨['1'], ['2'], ['3'], ['4']⟩ ['r'],
     Op.add ['/', 'b', '/'] ['u'] ['e'] ⟨['5'], ['6'], ['7'], ['8']⟩ ['w'],
     Op.del ['/', 'a', '/'] ⟨['1'], ['2'], ['3'], ['4']⟩] (by decide)
